import Mathlib

/-!
Verification of the resource-handler core of lmctfy against its sources:
`src/lmctfy/resources/cgroup_resource_handler.h` (the cgroup-based factory
and handler base classes and the SET_IF_PRESENT statistics helpers) and
`src/lmctfy/resources/monitoring_resource_handler.cc` (the Monitoring
specialisation).

The embedding is shallow: `util::Status` / `util::StatusOr` become explicit
sum-like values, the stats message being assembled becomes a state threaded
through the SET_IF_PRESENT steps, and the effect of handler operations on
controllers is recorded as an explicit trace of controller operations.
Controllers themselves belong to the external controller layer, so a
controller is modelled by the outcomes its operations report.

Bodies that live in `cgroup_resource_handler.cc` (not among the files here)
are modelled from the specification; each such definition's doc comment says
so and quotes the sentences it follows.
-/

namespace Lmctfy

/-- Error codes of `util::Status` (`util/task/codes.pb.h`), the closed
taxonomy the spec lists. -/
inductive ErrorCode where
  | OK
  | NOT_FOUND
  | ALREADY_EXISTS
  | INVALID_ARGUMENT
  | FAILED_PRECONDITION
  | UNAVAILABLE
  | INTERNAL
  deriving DecidableEq, Repr

/-- Embedding of `util::Status`: an error code together with a message. -/
structure Status where
  code : ErrorCode
  message : String
  deriving DecidableEq, Repr

/-- Embedding of `util::Status::OK`. -/
def Status.OK : Status := ⟨ErrorCode.OK, ""⟩

/-- Embedding of `status.ok()`: the code is `OK`. -/
def Status.ok (s : Status) : Bool := s.code == ErrorCode.OK

/-- Embedding of `util::StatusOr<T>`: a value, or the non-OK status of a
failed operation. -/
inductive StatusOr (α : Type) where
  | ok (v : α)
  | err (s : Status)
  deriving DecidableEq, Repr

/-- Embedding of the `SET_IF_PRESENT` helper
(`cgroup_resource_handler.h` lines 136-144). It runs inside a `Stats`
body that assembles a stats message of type `σ`: if the statusor is OK the
setter records the value; otherwise, if the error code is not `NOT_FOUND`,
the enclosing function returns that status (`Except.error`); a `NOT_FOUND`
statusor is skipped and execution continues (`Except.ok` with the message
unchanged). -/
def SET_IF_PRESENT {α σ : Type} (statusor : StatusOr α) (set_fn : α → σ → σ)
    (stats : σ) : Except Status σ :=
  match statusor with
  | .ok v => .ok (set_fn v stats)
  | .err st => if st.code ≠ ErrorCode.NOT_FOUND then .error st else .ok stats

/-- Embedding of the `SET_IF_PRESENT_VAL` helper
(`cgroup_resource_handler.h` lines 145-153): as `SET_IF_PRESENT` but the
setter receives `statusor.ValueOrDie().value()`, modelled by the `value`
projection of the strong type `α`. -/
def SET_IF_PRESENT_VAL {α β σ : Type} (statusor : StatusOr α) (value : α → β)
    (set_fn : β → σ → σ) (stats : σ) : Except Status σ :=
  match statusor with
  | .ok v => .ok (set_fn (value v) stats)
  | .err st => if st.code ≠ ErrorCode.NOT_FOUND then .error st else .ok stats

/-- The kernel cgroup hierarchies (the `CgroupHierarchy` enumeration; the
spec's closed list of subsystem mounts). -/
inductive CgroupHierarchy where
  | CGROUP_CPU
  | CGROUP_MEMORY
  | CGROUP_PERF_EVENT
  | CGROUP_FREEZER
  | CGROUP_CPUSET
  | CGROUP_BLKIO
  | CGROUP_DEVICE
  deriving DecidableEq, Repr

/-- The `CgroupFactory` as the factories consult it: which hierarchies are
mounted (`IsMounted`) and which cgroups this process owns (`OwnsCgroup`). -/
structure CgroupFactory where
  IsMounted : CgroupHierarchy → Bool
  OwnsCgroup : CgroupHierarchy → Bool

/-- Embedding of `PerfControllerFactory::HierarchyType()`: the Monitoring
resource depends on the `perf_event` hierarchy. -/
def PerfControllerFactory.HierarchyType : CgroupHierarchy :=
  CgroupHierarchy.CGROUP_PERF_EVENT

/-- The `PerfControllerFactory` as `MonitoringResourceHandlerFactory::New`
constructs it (`monitoring_resource_handler.cc` lines 40-43): it records
whether this process owns the perf cgroup. -/
structure PerfControllerFactory where
  owns_perf : Bool
  deriving DecidableEq, Repr

/-- The `MonitoringResourceHandlerFactory` as its constructor builds it
(`monitoring_resource_handler.cc` lines 49-53): it holds the perf controller
factory. -/
structure MonitoringResourceHandlerFactory where
  perf_controller_factory : PerfControllerFactory
  deriving DecidableEq, Repr

/-- Embedding of `MonitoringResourceHandlerFactory::New`
(`monitoring_resource_handler.cc` lines 28-47): if the perf hierarchy is not
mounted, return `NOT_FOUND` with the fixed message; otherwise construct a
`PerfControllerFactory` (recording `OwnsCgroup` of the perf hierarchy) and
return the new factory. -/
def MonitoringResourceHandlerFactory.New (cgroup_factory : CgroupFactory) :
    StatusOr MonitoringResourceHandlerFactory :=
  if !(cgroup_factory.IsMounted PerfControllerFactory.HierarchyType) then
    .err ⟨ErrorCode.NOT_FOUND,
          "Monitoring resource depends on the perf cgroup hierarchy"⟩
  else
    let owns_perf := cgroup_factory.OwnsCgroup PerfControllerFactory.HierarchyType
    .ok ⟨⟨owns_perf⟩⟩

/-- Embedding of `Container::NotificationId`. -/
def NotificationId := Nat

/-- Embedding of `MonitoringResourceHandler::RegisterNotification`
(`monitoring_resource_handler.cc` lines 91-96). The C++ body wraps the owned
callback in a `unique_ptr` (`callback_deleter`) whose destructor runs when
the function returns, so the second component records that the callback
closure was deallocated; the first is the returned statusor. -/
def MonitoringResourceHandler.RegisterNotification {EventSpec Callback : Type}
    (spec : EventSpec) (callback : Callback) :
    StatusOr NotificationId × Bool :=
  (.err ⟨ErrorCode.NOT_FOUND, "No handled event found"⟩, true)

/-- The operations a `CgroupController` exposes to its handler (the spec's
controller capability set). The Monitoring handler's `Update`/`Stats`/`Spec`
perform none of them, so each embedding returns the trace of controller
operations it performed. -/
inductive ControllerOp where
  | getStat (stat : String)
  | setValue (stat : String) (v : Nat)
  | enterTid (tid : Nat)
  | registerNote
  | destroyOp
  deriving DecidableEq, Repr

/-- Embedding of `Container::UpdatePolicy`. -/
inductive UpdatePolicy where
  | UPDATE_REPLACE
  | UPDATE_DIFF
  deriving DecidableEq, Repr

/-- Embedding of `Container::StatsType`. -/
inductive StatsType where
  | STATS_SUMMARY
  | STATS_FULL
  deriving DecidableEq, Repr

/-- Embedding of `MonitoringResourceHandler::Update`
(`monitoring_resource_handler.cc` lines 77-80): the body is
`return util::Status::OK;`. Output: the status and the trace of controller
operations performed (none). -/
def MonitoringResourceHandler.Update {ContainerSpec : Type}
    (spec : ContainerSpec) (policy : UpdatePolicy) :
    Status × List ControllerOp :=
  (Status.OK, [])

/-- Embedding of `MonitoringResourceHandler::Stats`
(`monitoring_resource_handler.cc` lines 82-85): the body is
`return util::Status::OK;` and never writes to `output`. Output of the
embedding: the status, the `ContainerStats` message after the call (the
unchanged input), and the trace of controller operations (none). -/
def MonitoringResourceHandler.Stats {ContainerStats : Type} (type : StatsType)
    (output : ContainerStats) :
    Status × ContainerStats × List ControllerOp :=
  (Status.OK, output, [])

/-- Embedding of `MonitoringResourceHandler::Spec`
(`monitoring_resource_handler.cc` lines 87-89): the body is
`return util::Status::OK;` and never writes to `spec`. -/
def MonitoringResourceHandler.Spec {ContainerSpec : Type}
    (spec : ContainerSpec) :
    Status × ContainerSpec × List ControllerOp :=
  (Status.OK, spec, [])

/-- Modelled from the spec: the body of the virtual
`CgroupResourceHandler::Create` (declared at `cgroup_resource_handler.h`
line 190, "Configure a new spec for a newly created container") is in
`cgroup_resource_handler.cc`, which is not among the repository files here.
The spec says: "`Create(spec)` — apply an initial spec; called by the factory
directly after `CreateResourceHandler`. Semantically equivalent to
`Update(spec, Replace)`." The handler's virtual `Update` is passed as a
function; `ρ` is its result (a status together with the resulting controller
state or trace). -/
def CgroupResourceHandler.Create {ContainerSpec ρ : Type}
    (Update : ContainerSpec → UpdatePolicy → ρ) (spec : ContainerSpec) : ρ :=
  Update spec UpdatePolicy.UPDATE_REPLACE

/-- A cgroup controller as the generic `CgroupResourceHandler` base drives it
(`controllers_` map, `cgroup_resource_handler.h` lines 199-200). The
controller layer is an external collaborator, so a controller is modelled by
its hierarchy and the outcomes its kernel-backed operations report: the
status of its `Destroy()` and, per TID, the status of `Enter(tid)`. -/
structure CgroupController where
  hierarchy : CgroupHierarchy
  destroyResult : Status
  enterResult : Nat → Status

/-- Modelled from the spec: the loop of `CgroupResourceHandler::Destroy`
(declared at `cgroup_resource_handler.h` lines 192-193: "Destroys all
controllers and iff OK deletes this object"); its body is in
`cgroup_resource_handler.cc`, absent from the files here. The spec says:
"`Destroy()` — iterate the controller map; call each controller's `Destroy`;
if all succeed, consume the handler; if any fails, return that error and
leave the handler live." Returns the overall status and the controllers on
which `Destroy` was invoked. -/
def CgroupResourceHandler.destroyControllers :
    List CgroupController → Status × List CgroupController
  | [] => (Status.OK, [])
  | c :: rest =>
    if c.destroyResult.ok then
      let r := CgroupResourceHandler.destroyControllers rest
      (r.1, c :: r.2)
    else
      (c.destroyResult, [c])

/-- Modelled from the spec (see `CgroupResourceHandler.destroyControllers`):
`Destroy()` runs the destruction loop and consumes (deletes) the handler
object iff the loop succeeded. Output: the returned status, whether the
handler object was consumed, and the controllers whose `Destroy` ran. -/
def CgroupResourceHandler.Destroy (controllers : List CgroupController) :
    Status × Bool × List CgroupController :=
  let r := CgroupResourceHandler.destroyControllers controllers
  (r.1, r.1.ok, r.2)

/-- Modelled from the spec: the nested loop of `CgroupResourceHandler::Enter`
restricted to one controller ("for each controller in arbitrary order, for
each TID, call the controller's `Enter`; short-circuit on first error"); the
body is in `cgroup_resource_handler.cc`, absent from the files here. Returns
the status of this controller's calls and the (hierarchy, TID) moves that
succeeded — spec: partial moves persist, there is no rollback. -/
def CgroupResourceHandler.enterOne (c : CgroupController) :
    List Nat → Status × List (CgroupHierarchy × Nat)
  | [] => (Status.OK, [])
  | tid :: rest =>
    let st := c.enterResult tid
    if st.ok then
      let r := CgroupResourceHandler.enterOne c rest
      (r.1, (c.hierarchy, tid) :: r.2)
    else
      (st, [])

/-- Modelled from the spec: `CgroupResourceHandler::Enter` (declared at
`cgroup_resource_handler.h` lines 195-196: "Enter the specified TIDs into all
controllers"): the outer loop over the controller map, short-circuiting when
a controller's calls failed. Output: the returned status and every
(hierarchy, TID) move that succeeded before the first failure. -/
def CgroupResourceHandler.Enter :
    List CgroupController → List Nat → Status × List (CgroupHierarchy × Nat)
  | [], _ => (Status.OK, [])
  | c :: rest, tids =>
    let r := CgroupResourceHandler.enterOne c tids
    if r.1.ok then
      let r2 := CgroupResourceHandler.Enter rest tids
      (r2.1, r.2 ++ r2.2)
    else
      r

/-- The sequence of controller `Enter` calls the spec prescribes, in
iteration order: every (controller, TID) pair, controllers outermost. -/
def enterCallOrder (controllers : List CgroupController) (tids : List Nat) :
    List (CgroupController × Nat) :=
  controllers.flatMap fun c => tids.map fun tid => (c, tid)

/-- Whether one controller `Enter` call succeeds. -/
def enterCallOk (p : CgroupController × Nat) : Bool :=
  (p.1.enterResult p.2).ok

/-- The first failing controller `Enter` call in iteration order, if any. -/
def enterFirstError (controllers : List CgroupController) (tids : List Nat) :
    Option (CgroupController × Nat) :=
  (enterCallOrder controllers tids).find? fun p => !enterCallOk p

/-- The moves performed before the first failing call: every call strictly
before it succeeds and its TID stays moved (no rollback). -/
def enterMovedBeforeError (controllers : List CgroupController)
    (tids : List Nat) : List (CgroupHierarchy × Nat) :=
  ((enterCallOrder controllers tids).takeWhile enterCallOk).map
    fun p => (p.1.hierarchy, p.2)

/-- A resource handler as the default factory `Create` drives it: its virtual
`Update` (through which `CgroupResourceHandler.Create` pushes the initial
spec) reports a status, and its `Destroy()` reports a status. -/
structure ModelResourceHandler (ContainerSpec : Type) where
  Update : ContainerSpec → UpdatePolicy → Status
  destroyResult : Status

/-- Modelled from the spec: the body of
`CgroupResourceHandlerFactory::Create` (declared at
`cgroup_resource_handler.h` lines 68-72: "Default implementation uses
CreateResourceHandler() and then sets the container spec through
ResourceHandler's Update()") is in `cgroup_resource_handler.cc`, absent from
the files here. The spec says: "Default `Create` is: `CreateResourceHandler`
then call the resulting handler's `Create(spec)` to push the initial
configuration. On spec-application failure the partially created handler
must be `Destroy`ed before the error is returned" and "a `Destroy` failure
is logged but the original `Update` failure is the returned error". The
subclass primitive `CreateResourceHandler` is passed as a function. Output:
the returned statusor and, when `Destroy` was called on the partially
created handler, the status it logged. -/
def CgroupResourceHandlerFactory.Create {ContainerSpec : Type}
    (CreateResourceHandler :
      String → ContainerSpec → StatusOr (ModelResourceHandler ContainerSpec))
    (container_name : String) (spec : ContainerSpec) :
    StatusOr (ModelResourceHandler ContainerSpec) × Option Status :=
  match CreateResourceHandler container_name spec with
  | .err st => (.err st, none)
  | .ok handler =>
    let status := CgroupResourceHandler.Create handler.Update spec
    if status.ok then
      (.ok handler, none)
    else
      (.err status, some handler.destroyResult)

/-- A CgroupFactory with no hierarchy mounted, for concrete instantiation. -/
def cgroupFactoryNoneMounted : CgroupFactory :=
  ⟨fun _ => false, fun _ => false⟩

/-- C1: the absent-stat convention of SET_IF_PRESENT and SET_IF_PRESENT_VAL:
a statusor that is OK has its value recorded by the setter and execution
continues; a NOT_FOUND statusor is skipped (setter not called, message
unchanged, execution continues); any other non-OK status makes the enclosing
Stats operation abort, returning that status. -/
theorem set_if_present_absent_stat_convention (α β σ : Type)
    (set_fn : α → σ → σ) (value : α → β) (set_val : β → σ → σ) (stats : σ) :
    (∀ v, SET_IF_PRESENT (StatusOr.ok v) set_fn stats =
      Except.ok (set_fn v stats)) ∧
    (∀ msg, SET_IF_PRESENT (α := α) (StatusOr.err ⟨ErrorCode.NOT_FOUND, msg⟩)
      set_fn stats = Except.ok stats) ∧
    (∀ st, st.code ≠ ErrorCode.NOT_FOUND →
      SET_IF_PRESENT (α := α) (StatusOr.err st) set_fn stats =
        Except.error st) ∧
    (∀ v, SET_IF_PRESENT_VAL (StatusOr.ok v) value set_val stats =
      Except.ok (set_val (value v) stats)) ∧
    (∀ msg, SET_IF_PRESENT_VAL (α := α) (StatusOr.err ⟨ErrorCode.NOT_FOUND, msg⟩)
      value set_val stats = Except.ok stats) ∧
    (∀ st, st.code ≠ ErrorCode.NOT_FOUND →
      SET_IF_PRESENT_VAL (α := α) (StatusOr.err st) value set_val stats =
        Except.error st) := by
  refine ⟨fun v => rfl, fun msg => by simp [SET_IF_PRESENT],
    fun st h => by simp [SET_IF_PRESENT, h],
    fun v => rfl, fun msg => by simp [SET_IF_PRESENT_VAL],
    fun st h => by simp [SET_IF_PRESENT_VAL, h]⟩

/-- C3: whenever the cgroup factory reports the perf_event hierarchy as not
mounted, MonitoringResourceHandlerFactory::New returns NOT_FOUND with the
message "Monitoring resource depends on the perf cgroup hierarchy". -/
theorem monitoring_new_unmounted_notfound (cgroup_factory : CgroupFactory)
    (h : cgroup_factory.IsMounted PerfControllerFactory.HierarchyType = false) :
    MonitoringResourceHandlerFactory.New cgroup_factory =
      StatusOr.err ⟨ErrorCode.NOT_FOUND,
        "Monitoring resource depends on the perf cgroup hierarchy"⟩ := by
  simp [MonitoringResourceHandlerFactory.New, h]

/-- Witness for C3 at a factory with nothing mounted. -/
theorem monitoring_new_unmounted_notfound_witness :
    MonitoringResourceHandlerFactory.New cgroupFactoryNoneMounted =
      StatusOr.err ⟨ErrorCode.NOT_FOUND,
        "Monitoring resource depends on the perf cgroup hierarchy"⟩ :=
  monitoring_new_unmounted_notfound cgroupFactoryNoneMounted rfl

/-- C9: MonitoringResourceHandlerFactory::New fails exactly when the
perf_event hierarchy is unmounted; whenever it is mounted, New returns OK
with a newly constructed factory whose perf controller factory records
OwnsCgroup(perf_event), whatever that value is. -/
theorem monitoring_new_ok_iff_mounted (cgroup_factory : CgroupFactory) :
    (cgroup_factory.IsMounted PerfControllerFactory.HierarchyType = true →
      MonitoringResourceHandlerFactory.New cgroup_factory =
        StatusOr.ok
          ⟨⟨cgroup_factory.OwnsCgroup PerfControllerFactory.HierarchyType⟩⟩) ∧
    ((∃ st, MonitoringResourceHandlerFactory.New cgroup_factory =
        StatusOr.err st) ↔
      cgroup_factory.IsMounted PerfControllerFactory.HierarchyType = false) := by
  constructor
  · intro h
    simp [MonitoringResourceHandlerFactory.New, h]
  · cases h : cgroup_factory.IsMounted PerfControllerFactory.HierarchyType <;>
      simp [MonitoringResourceHandlerFactory.New, h]

/-- C6: for every event spec and callback,
MonitoringResourceHandler::RegisterNotification returns NOT_FOUND with the
message "No handled event found", and the callback closure it took ownership
of is released on this failing path. -/
theorem register_notification_notfound_releases (EventSpec Callback : Type)
    (spec : EventSpec) (callback : Callback) :
    MonitoringResourceHandler.RegisterNotification spec callback =
      (StatusOr.err ⟨ErrorCode.NOT_FOUND, "No handled event found"⟩, true) :=
  rfl

/-- C7: MonitoringResourceHandler::Update, ::Stats and ::Spec all succeed as
no-ops: each returns OK and performs no controller operations. -/
theorem monitoring_noop_operations (ContainerSpec ContainerStats : Type)
    (spec : ContainerSpec) (policy : UpdatePolicy) (type : StatsType)
    (output : ContainerStats) :
    MonitoringResourceHandler.Update spec policy =
      (Status.OK, ([] : List ControllerOp)) ∧
    (MonitoringResourceHandler.Stats type output).1 = Status.OK ∧
    (MonitoringResourceHandler.Stats type output).2.2 = [] ∧
    (MonitoringResourceHandler.Spec spec).1 = Status.OK ∧
    (MonitoringResourceHandler.Spec spec).2.2 = [] :=
  ⟨rfl, rfl, rfl, rfl, rfl⟩

/-- C10: MonitoringResourceHandler::Stats and ::Spec never write to their
output message: whatever the output argument held before the call, it is
unchanged after it. -/
theorem monitoring_stats_spec_frame (ContainerSpec ContainerStats : Type)
    (type : StatsType) (output : ContainerStats) (spec : ContainerSpec) :
    (MonitoringResourceHandler.Stats type output).2.1 = output ∧
    (MonitoringResourceHandler.Spec spec).2.1 = spec :=
  ⟨rfl, rfl⟩

/-- C5: CgroupResourceHandler::Create(spec) is Update(spec, Replace): the
same status and the same resulting controller state, for every Update
implementation a subclass supplies; in particular for the Monitoring
handler's Update. -/
theorem create_is_update_replace (ContainerSpec ρ : Type)
    (Update : ContainerSpec → UpdatePolicy → ρ) (spec : ContainerSpec) :
    CgroupResourceHandler.Create Update spec =
      Update spec UpdatePolicy.UPDATE_REPLACE ∧
    CgroupResourceHandler.Create MonitoringResourceHandler.Update spec =
      MonitoringResourceHandler.Update spec UpdatePolicy.UPDATE_REPLACE :=
  ⟨rfl, rfl⟩

/-- The destruction loop on an all-succeeding controller list: status OK and
every controller's Destroy ran. -/
theorem destroyControllers_all_ok (controllers : List CgroupController)
    (h : ∀ c ∈ controllers, c.destroyResult.ok = true) :
    CgroupResourceHandler.destroyControllers controllers =
      (Status.OK, controllers) := by
  induction controllers with
  | nil => rfl
  | cons c rest ih =>
    have hc : c.destroyResult.ok = true := h c (by simp)
    have hr := ih fun d hd => h d (by simp [hd])
    simp [CgroupResourceHandler.destroyControllers, hc, hr]

/-- The destruction loop returns the first failing controller's error. -/
theorem destroyControllers_first_err (controllers : List CgroupController)
    (c : CgroupController)
    (h : controllers.find? (fun d => !d.destroyResult.ok) = some c) :
    (CgroupResourceHandler.destroyControllers controllers).1 =
      c.destroyResult ∧ c.destroyResult.ok = false := by
  induction controllers with
  | nil => simp [List.find?] at h
  | cons d rest ih =>
    by_cases hd : d.destroyResult.ok
    · rw [List.find?_cons_of_neg _ (by simp [hd])] at h
      have := ih h
      simp [CgroupResourceHandler.destroyControllers, hd, this.1, this.2]
    · rw [List.find?_cons_of_pos _ (by simp [hd])] at h
      cases h
      simp [CgroupResourceHandler.destroyControllers, hd]

/-- C4: CgroupResourceHandler::Destroy destroys the owned controllers; the
handler object is consumed exactly when every controller destruction
succeeds, in which case Destroy ran on every controller and OK is returned;
when some destruction fails, the first failing controller's error is
returned and the handler remains live (usable for retry). -/
theorem destroy_consumes_iff_all_ok (controllers : List CgroupController) :
    ((CgroupResourceHandler.Destroy controllers).2.1 = true ↔
      ∀ c ∈ controllers, c.destroyResult.ok = true) ∧
    ((∀ c ∈ controllers, c.destroyResult.ok = true) →
      CgroupResourceHandler.Destroy controllers =
        (Status.OK, true, controllers)) ∧
    (∀ c, controllers.find? (fun d => !d.destroyResult.ok) = some c →
      (CgroupResourceHandler.Destroy controllers).1 = c.destroyResult ∧
      (CgroupResourceHandler.Destroy controllers).2.1 = false) := by
  refine ⟨?_, ?_, ?_⟩
  · cases hf : controllers.find? (fun d => !d.destroyResult.ok) with
    | none =>
      have hall : ∀ c ∈ controllers, c.destroyResult.ok = true := by
        intro c hc
        have := List.find?_eq_none.mp hf c hc
        simpa using this
      simp only [CgroupResourceHandler.Destroy, destroyControllers_all_ok _ hall]
      exact ⟨fun _ => hall, fun _ => by decide⟩
    | some c =>
      have h1 := destroyControllers_first_err controllers c hf
      have hmem := List.mem_of_find?_eq_some hf
      constructor
      · intro hcons
        exfalso
        have : (CgroupResourceHandler.Destroy controllers).2.1 = false := by
          simp [CgroupResourceHandler.Destroy, h1.1, h1.2]
        rw [this] at hcons
        simp at hcons
      · intro hall
        exact absurd (hall c hmem) (by simp [h1.2])
  · intro hall
    simp [CgroupResourceHandler.Destroy, destroyControllers_all_ok _ hall,
      Status.ok, Status.OK]
  · intro c hf
    have h1 := destroyControllers_first_err controllers c hf
    simp [CgroupResourceHandler.Destroy, h1.1, h1.2]

/-- takeWhile passes over a first block every element of which satisfies the
predicate. -/
theorem takeWhile_append_all {α : Type} (p : α → Bool) (l1 l2 : List α)
    (h : ∀ x ∈ l1, p x = true) :
    (l1 ++ l2).takeWhile p = l1 ++ l2.takeWhile p := by
  induction l1 with
  | nil => simp
  | cons a l ih =>
    have ha : p a = true := h a (by simp)
    have hl := ih fun x hx => h x (by simp [hx])
    simp [List.takeWhile_cons, ha, hl]

/-- takeWhile stops inside a first block that contains a failing element. -/
theorem takeWhile_append_stop {α : Type} (p : α → Bool) (l1 l2 : List α)
    (h : l1.find? (fun x => !p x) ≠ none) :
    (l1 ++ l2).takeWhile p = l1.takeWhile p := by
  induction l1 with
  | nil => simp [List.find?] at h
  | cons a l ih =>
    by_cases ha : p a
    · rw [List.find?_cons_of_neg _ (by simp [ha])] at h
      simp [List.takeWhile_cons, ha, ih h]
    · simp [List.takeWhile_cons, ha]

/-- takeWhile keeps a whole list every element of which satisfies the
predicate. -/
theorem takeWhile_all {α : Type} (p : α → Bool) (l : List α)
    (h : ∀ x ∈ l, p x = true) : l.takeWhile p = l := by
  have := takeWhile_append_all p l [] h
  simpa using this

/-- The inner loop of Enter on one controller, fused: the status is that of
the first failing Enter call on this controller (OK when none fails) and the
moves are the TIDs entered before that failure. -/
theorem enterOne_eq (c : CgroupController) (tids : List Nat) :
    CgroupResourceHandler.enterOne c tids =
      ((match tids.find? (fun tid => !(c.enterResult tid).ok) with
        | none => Status.OK
        | some tid => c.enterResult tid),
       (tids.takeWhile fun tid => (c.enterResult tid).ok).map
         fun tid => (c.hierarchy, tid)) := by
  induction tids with
  | nil => rfl
  | cons t rest ih =>
    by_cases h : (c.enterResult t).ok
    · rw [List.find?_cons_of_neg _ (by simp [h])]
      simp only [CgroupResourceHandler.enterOne, h, if_pos rfl, ih,
        List.takeWhile_cons, List.map_cons]
      simp [h]
    · rw [List.find?_cons_of_pos _ (by simp [h])]
      simp [CgroupResourceHandler.enterOne, h, List.takeWhile_cons]

/-- Membership in the iteration order of Enter calls. -/
theorem mem_enterCallOrder {p : CgroupController × Nat}
    {controllers : List CgroupController} {tids : List Nat} :
    p ∈ enterCallOrder controllers tids ↔ p.1 ∈ controllers ∧ p.2 ∈ tids := by
  cases p with
  | mk c t =>
    simp only [enterCallOrder, List.mem_flatMap, List.mem_map, Prod.mk.injEq]
    constructor
    · rintro ⟨d, hd, s, hs, rfl, rfl⟩
      exact ⟨hd, hs⟩
    · rintro ⟨hc, ht⟩
      exact ⟨c, hc, t, ht, rfl, rfl⟩

/-- The nested Enter loop, fused over all controllers: the status is that of
the first failing call in iteration order (OK when none fails) and the moves
are exactly those performed before that failure. -/
theorem enter_loop_eq_flat (controllers : List CgroupController)
    (tids : List Nat) :
    CgroupResourceHandler.Enter controllers tids =
      ((match enterFirstError controllers tids with
        | none => Status.OK
        | some p => p.1.enterResult p.2),
       enterMovedBeforeError controllers tids) := by
  induction controllers with
  | nil => rfl
  | cons c rest ih =>
    have horder : enterCallOrder (c :: rest) tids =
        (tids.map fun tid => (c, tid)) ++ enterCallOrder rest tids := by
      simp [enterCallOrder, List.flatMap_cons]
    have hcomp : ∀ tid : Nat,
        ((fun p : CgroupController × Nat => !enterCallOk p) ∘
          fun tid => (c, tid)) tid = !(c.enterResult tid).ok := by
      intro tid; rfl
    cases hf : tids.find? (fun tid => !(c.enterResult tid).ok) with
    | none =>
      have hallt : ∀ tid ∈ tids, (c.enterResult tid).ok = true := by
        intro t ht
        simpa using List.find?_eq_none.mp hf t ht
      have hone : CgroupResourceHandler.enterOne c tids =
          (Status.OK, tids.map fun tid => (c.hierarchy, tid)) := by
        rw [enterOne_eq, hf, takeWhile_all _ _ hallt]
      have hmapnone : (tids.map fun tid => (c, tid)).find?
          (fun p => !enterCallOk p) = none := by
        rw [List.find?_map]
        have h2 : tids.find? ((fun p : CgroupController × Nat =>
            !enterCallOk p) ∘ fun tid => (c, tid)) = none := by
          rw [funext hcomp]
          exact hf
        rw [h2]
        rfl
      have hfe : enterFirstError (c :: rest) tids =
          enterFirstError rest tids := by
        rw [enterFirstError, horder, List.find?_append, hmapnone]
        rfl
      have hmv : enterMovedBeforeError (c :: rest) tids =
          (tids.map fun tid => (c.hierarchy, tid)) ++
            enterMovedBeforeError rest tids := by
        rw [enterMovedBeforeError, horder, takeWhile_append_all]
        · rw [List.map_append, List.map_map]
          congr 1
        · intro p hp
          obtain ⟨t, ht, rfl⟩ := List.mem_map.mp hp
          simpa [enterCallOk] using hallt t ht
      simp only [CgroupResourceHandler.Enter, hone]
      have hok : Status.OK.ok = true := by decide
      rw [if_pos hok, ih, hfe, hmv]
    | some t0 =>
      have ht0 : (c.enterResult t0).ok = false := by
        simpa using List.find?_some hf
      have hone : CgroupResourceHandler.enterOne c tids =
          (c.enterResult t0,
           (tids.takeWhile fun tid => (c.enterResult tid).ok).map
             fun tid => (c.hierarchy, tid)) := by
        rw [enterOne_eq, hf]
      have hmapsome : (tids.map fun tid => (c, tid)).find?
          (fun p => !enterCallOk p) = some (c, t0) := by
        rw [List.find?_map]
        have h2 : tids.find? ((fun p : CgroupController × Nat =>
            !enterCallOk p) ∘ fun tid => (c, tid)) = some t0 := by
          rw [funext hcomp]
          exact hf
        rw [h2]
        rfl
      have hfe : enterFirstError (c :: rest) tids = some (c, t0) := by
        rw [enterFirstError, horder, List.find?_append, hmapsome]
        rfl
      have hmv : enterMovedBeforeError (c :: rest) tids =
          (tids.takeWhile fun tid => (c.enterResult tid).ok).map
            fun tid => (c.hierarchy, tid) := by
        rw [enterMovedBeforeError, horder, takeWhile_append_stop, List.takeWhile_map]
        · rw [List.map_map]
          rfl
        · rw [hmapsome]
          simp
      simp only [CgroupResourceHandler.Enter, hone, ht0]
      rw [if_neg (by simp [ht0]), hfe, hmv]

/-- C8: CgroupResourceHandler::Enter calls each owned controller's Enter for
each TID in iteration order and short-circuits on the first error: the first
failing call's error is returned, the TIDs moved before that failure stay
moved (no rollback), and when every call succeeds the result is OK with all
TIDs moved into all controllers. -/
theorem enter_short_circuit_no_rollback (controllers : List CgroupController)
    (tids : List Nat) :
    CgroupResourceHandler.Enter controllers tids =
      ((match enterFirstError controllers tids with
        | none => Status.OK
        | some p => p.1.enterResult p.2),
       enterMovedBeforeError controllers tids) ∧
    ((CgroupResourceHandler.Enter controllers tids).1 = Status.OK ↔
      ∀ c ∈ controllers, ∀ tid ∈ tids, (c.enterResult tid).ok = true) := by
  refine ⟨enter_loop_eq_flat controllers tids, ?_⟩
  rw [enter_loop_eq_flat]
  cases hf : enterFirstError controllers tids with
  | none =>
    simp only
    constructor
    · intro _ c hc tid ht
      have hmem : (c, tid) ∈ enterCallOrder controllers tids :=
        mem_enterCallOrder.mpr ⟨hc, ht⟩
      have := List.find?_eq_none.mp hf (c, tid) hmem
      simpa [enterCallOk] using this
    · intro _
      trivial
  | some p =>
    have hpok : enterCallOk p = false := by
      simpa using List.find?_some hf
    have hpmem : p.1 ∈ controllers ∧ p.2 ∈ tids :=
      mem_enterCallOrder.mp (List.mem_of_find?_eq_some hf)
    simp only
    constructor
    · intro heq
      have h1 : (p.1.enterResult p.2).ok = false := hpok
      rw [heq] at h1
      simp [Status.ok, Status.OK] at h1
    · intro hall
      have := hall p.1 hpmem.1 p.2 hpmem.2
      rw [show enterCallOk p = (p.1.enterResult p.2).ok from rfl, this] at hpok
      simp at hpok

/-- C2: the default CgroupResourceHandlerFactory::Create first runs
CreateResourceHandler and then the resulting handler's Create(spec) (which
pushes the spec through the handler's Update); when that spec application
fails, the partially created handler is Destroy-ed (its status only logged)
and the error returned to the caller is the original spec-application error,
whatever status the Destroy reported. -/
theorem factory_create_destroys_on_failure (ContainerSpec : Type)
    (CreateResourceHandler :
      String → ContainerSpec → StatusOr (ModelResourceHandler ContainerSpec))
    (container_name : String) (spec : ContainerSpec) :
    (∀ st, CreateResourceHandler container_name spec = StatusOr.err st →
      CgroupResourceHandlerFactory.Create CreateResourceHandler
        container_name spec = (StatusOr.err st, none)) ∧
    (∀ handler, CreateResourceHandler container_name spec =
        StatusOr.ok handler →
      (CgroupResourceHandler.Create handler.Update spec).ok = true →
      CgroupResourceHandlerFactory.Create CreateResourceHandler
        container_name spec = (StatusOr.ok handler, none)) ∧
    (∀ handler, CreateResourceHandler container_name spec =
        StatusOr.ok handler →
      (CgroupResourceHandler.Create handler.Update spec).ok = false →
      CgroupResourceHandlerFactory.Create CreateResourceHandler
        container_name spec =
        (StatusOr.err (CgroupResourceHandler.Create handler.Update spec),
         some handler.destroyResult)) := by
  refine ⟨?_, ?_, ?_⟩
  · intro st h
    simp [CgroupResourceHandlerFactory.Create, h]
  · intro handler h hok
    simp [CgroupResourceHandlerFactory.Create, h, hok]
  · intro handler h hfail
    simp [CgroupResourceHandlerFactory.Create, h, hfail]

end Lmctfy
